import Mathlib

/-!
Shallow embedding of `src/tools/virtual_m8.py` (the Virtual M8 device
simulator): the Launchpad Pro protocol constants, the `VirtualM8` state
machine (LED dictionary, current track, shift flag) with its note-on /
note-off handlers, and the `create_led_sysex` encoder.

Modelling conventions:
  * A Python `(r, g, b)` color tuple is `Color := ℕ × ℕ × ℕ`.
  * The Python dict `led_state` is a function `ℕ → Option Color`;
    dict assignment `d[k] = v` is `dictInsert`, and a sequence of
    assignments is `applyWrites` (a left fold, so later writes win).
  * Methods become functions `VirtualM8 → ... → VirtualM8 × updates`,
    returning the new state together with the update list the Python
    method returns.  The leading underscore of the private helpers
    (`_select_track`, `_get_track_led_updates`, `_handle_nav`,
    `_init_leds`) is dropped, as Lean reserves `_`-prefixed holes.
-/

/-- A device color: an `(r, g, b)` triple of naturals. -/
abbrev Color : Type := ℕ × ℕ × ℕ

/-- Constant `LPP_SYSEX_HEADER = [0x00, 0x20, 0x29, 0x02, 0x10]` from the source. -/
def LPP_SYSEX_HEADER : List ℕ := [0x00, 0x20, 0x29, 0x02, 0x10]

/-- Constant `LED_MODE_RGB = 0x0B` from the source. -/
def LED_MODE_RGB : ℕ := 0x0B

/-- The `M8_COLORS` palette dict from the source, as a function from the
color name to its RGB triple.  The source only ever looks up keys that are
present; a missing key is mapped to `(0, 0, 0)` here (in Python it would
raise, but no reachable code path does that). -/
def M8_COLORS : String → Color
  | "off" => (0, 0, 0)
  | "white" => (63, 63, 63)
  | "red" => (63, 0, 0)
  | "green" => (0, 63, 0)
  | "blue" => (0, 0, 63)
  | "yellow" => (63, 63, 0)
  | "cyan" => (0, 63, 63)
  | "magenta" => (63, 0, 63)
  | "orange" => (63, 32, 0)
  | "pink" => (63, 20, 40)
  | "dim_white" => (20, 20, 20)
  | "dim_red" => (20, 0, 0)
  | "dim_green" => (0, 20, 0)
  | "dim_blue" => (0, 0, 20)
  | _ => (0, 0, 0)

/-- Python dict assignment `d[note] = color` on the `led_state` map. -/
def dictInsert (d : ℕ → Option Color) (k : ℕ) (v : Color) : ℕ → Option Color :=
  fun x => if x = k then some v else d x

/-- A sequence of dict assignments, applied left to right (so a later
write to the same key wins, as in Python). -/
def applyWrites (d : ℕ → Option Color) (ws : List (ℕ × Color)) : ℕ → Option Color :=
  ws.foldl (fun g w => dictInsert g w.1 w.2) d

/-- The `(note, color)` pairs written by `VirtualM8._init_leds`, in the
order the source writes them: the 8×8 grid dimmed, then the eight track
buttons (first one cyan), then the four navigation buttons dim blue. -/
def init_writes : List (ℕ × Color) :=
  ((List.range 8).flatMap fun row =>
    (List.range 8).map fun col =>
      ((row + 1) * 10 + (col + 1), M8_COLORS "dim_white"))
  ++ ((List.range 8).map fun i =>
      (91 + i, if i = 0 then M8_COLORS "cyan" else M8_COLORS "dim_white"))
  ++ [(89, M8_COLORS "dim_blue"), (79, M8_COLORS "dim_blue"),
      (69, M8_COLORS "dim_blue"), (59, M8_COLORS "dim_blue")]

/-- The state of the simulated device: the fields of `VirtualM8.__init__`
(the `verbose` logging flag is I/O glue and is not modelled). -/
structure VirtualM8 where
  led_state : ℕ → Option Color
  current_track : ℕ
  current_view : String
  shift_held : Bool

/-- Constructor `VirtualM8.__init__`: empty dict populated by `_init_leds`, track 0,
view `song`, shift not held. -/
def VirtualM8.boot : VirtualM8 :=
  { led_state := applyWrites (fun _ => none) init_writes
    current_track := 0
    current_view := "song"
    shift_held := false }

/-- Method `_select_track`: sets `current_track` (logging dropped). -/
def VirtualM8.select_track (m : VirtualM8) (track : ℕ) : VirtualM8 :=
  { m with current_track := track }

/-- The `(note, color)` pairs built by the loop of
`VirtualM8._get_track_led_updates` when `current_track = t`: notes
`91 + i` for `i` in `0..7`, cyan for the selected track, dim white for
the others. -/
def trackWrites (t : ℕ) : List (ℕ × Color) :=
  (List.range 8).map fun i =>
    (91 + i, if i = t then M8_COLORS "cyan" else M8_COLORS "dim_white")

/-- Method `_get_track_led_updates`: writes all eight track-button
colors into `led_state` and returns them as the update list. -/
def VirtualM8.get_track_led_updates (m : VirtualM8) : VirtualM8 × List (ℕ × Color) :=
  let ws := trackWrites m.current_track
  ({ m with led_state := applyWrites m.led_state ws }, ws)

/-- Method `_handle_nav`: blue when pressed, dim blue when released;
the written color is returned as a single-entry update. -/
def VirtualM8.handle_nav (m : VirtualM8) (note : ℕ) (pressed : Bool) :
    VirtualM8 × List (ℕ × Color) :=
  let color := if pressed then M8_COLORS "blue" else M8_COLORS "dim_blue"
  ({ m with led_state := dictInsert m.led_state note color }, [(note, color)])

/-- Method `handle_note_on`: branch order and conditions exactly as in
the source (track row `91..98`, navigation `{89, 79, 69, 59}`, the main
grid `11..88` with last digit not 0 or 9, shift `106`, otherwise no-op).
`velocity` is only logged by the source, never used. -/
def VirtualM8.handle_note_on (m : VirtualM8) (note velocity : ℕ) :
    VirtualM8 × List (ℕ × Color) :=
  if 91 ≤ note ∧ note ≤ 98 then
    (m.select_track (note - 91)).get_track_led_updates
  else if note = 89 ∨ note = 79 ∨ note = 69 ∨ note = 59 then
    m.handle_nav note true
  else if 11 ≤ note ∧ note ≤ 88 ∧ note % 10 ≠ 0 ∧ note % 10 ≠ 9 then
    ({ m with led_state := dictInsert m.led_state note (M8_COLORS "white") },
     [(note, M8_COLORS "white")])
  else if note = 106 then
    ({ m with shift_held := true }, [(note, M8_COLORS "orange")])
  else
    (m, [])

/-- Method `handle_note_off`: grid cells revert to dim white,
navigation buttons to dim blue, shift clears the flag and reports dim
white (without touching `led_state`), anything else is a no-op. -/
def VirtualM8.handle_note_off (m : VirtualM8) (note velocity : ℕ) :
    VirtualM8 × List (ℕ × Color) :=
  if 11 ≤ note ∧ note ≤ 88 ∧ note % 10 ≠ 0 ∧ note % 10 ≠ 9 then
    ({ m with led_state := dictInsert m.led_state note (M8_COLORS "dim_white") },
     [(note, M8_COLORS "dim_white")])
  else if note = 89 ∨ note = 79 ∨ note = 69 ∨ note = 59 then
    m.handle_nav note false
  else if note = 106 then
    ({ m with shift_held := false }, [(note, M8_COLORS "dim_white")])
  else
    (m, [])

/-- Method `get_all_leds`: the entries of the `led_state` dict.  MIDI
notes live in `0..127`, and every key ever written is `≤ 98`, so
enumerating `0..127` in key order captures every entry. -/
def VirtualM8.get_all_leds (m : VirtualM8) : List (ℕ × Color) :=
  (List.range 128).filterMap fun k => (m.led_state k).map fun c => (k, c)

/-- Function `create_led_sysex`: `None` for an empty update list, otherwise the
payload `LPP_SYSEX_HEADER ++ [LED_MODE_RGB]` followed by the quad
`[note, r, g, b]` of each update in input order (the `for` loop's
`data.extend`). -/
def create_led_sysex (updates : List (ℕ × Color)) : Option (List ℕ) :=
  if updates = [] then none
  else some ((LPP_SYSEX_HEADER ++ [LED_MODE_RGB]) ++
    updates.flatMap fun u => [u.1, u.2.1, u.2.2.1, u.2.2.2])

/-- One dispatch step of the event loop in `run_virtual_m8`: a message
`(on, note, velocity)` is routed to `handle_note_on` when `on` is true
(a note-on with positive velocity) and to `handle_note_off` otherwise
(a note-off, or a note-on with zero velocity, which the loop forwards
with velocity 0); the returned update list is what the loop encodes. -/
def VirtualM8.step (m : VirtualM8) (e : Bool × ℕ × ℕ) : VirtualM8 :=
  if e.1 then (m.handle_note_on e.2.1 e.2.2).1 else (m.handle_note_off e.2.1 e.2.2).1

/-- Repeated dispatch: the state after the event loop has consumed a list
of messages. -/
def VirtualM8.run (m : VirtualM8) (evs : List (Bool × ℕ × ℕ)) : VirtualM8 :=
  evs.foldl VirtualM8.step m

/-- The grid-cell test of the source handlers: both decimal digits of the
note lie in `1..8`. -/
def isGridNote (n : ℕ) : Prop :=
  11 ≤ n ∧ n ≤ 88 ∧ n % 10 ≠ 0 ∧ n % 10 ≠ 9

instance : DecidablePred isGridNote := fun n => by
  unfold isGridNote; infer_instance

/-- The 76 controls `_init_leds` populates: the 64 grid cells, the track
row `91..98` and the four navigation notes. -/
def isBootKey (n : ℕ) : Prop :=
  isGridNote n ∨ (91 ≤ n ∧ n ≤ 98) ∨ n = 89 ∨ n = 79 ∨ n = 69 ∨ n = 59

instance : DecidablePred isBootKey := fun n => by
  unfold isBootKey; infer_instance

/-! ## Helper lemmas about the dict model -/

theorem applyWrites_nil (d : ℕ → Option Color) : applyWrites d [] = d := rfl

theorem applyWrites_cons (d : ℕ → Option Color) (w : ℕ × Color)
    (ws : List (ℕ × Color)) :
    applyWrites d (w :: ws) = applyWrites (dictInsert d w.1 w.2) ws := rfl

/-- A key not written by any element of `ws` keeps its old value. -/
theorem applyWrites_miss (ws : List (ℕ × Color)) (k : ℕ) :
    ∀ d : ℕ → Option Color, (∀ w ∈ ws, w.1 ≠ k) → applyWrites d ws k = d k := by
  induction ws with
  | nil => intro d _; rfl
  | cons w ws ih =>
    intro d h
    rw [applyWrites_cons, ih _ (fun x hx => h x (List.mem_cons_of_mem w hx))]
    unfold dictInsert
    rw [if_neg (fun hk : k = w.1 => (h w (List.mem_cons_self w ws)) hk.symm)]

/-- What the eight writes of `_get_track_led_updates` do to an arbitrary
key: inside the track row `91..98` the key gets the row color for its
index, outside the row nothing changes. -/
theorem trackWrites_char (t k : ℕ) (d : ℕ → Option Color) :
    applyWrites d (trackWrites t) k =
      if 91 ≤ k ∧ k ≤ 98 then
        some (if k - 91 = t then M8_COLORS "cyan" else M8_COLORS "dim_white")
      else d k := by
  rcases Decidable.em (91 ≤ k ∧ k ≤ 98) with h | h
  · rw [if_pos h]
    obtain ⟨h1, h2⟩ := h
    have hr : List.range 8 = [0, 1, 2, 3, 4, 5, 6, 7] := by decide
    interval_cases k <;>
      simp [trackWrites, hr, applyWrites, dictInsert]
  · rw [if_neg h]
    apply applyWrites_miss
    intro w hw
    simp only [trackWrites, List.mem_map, List.mem_range] at hw
    obtain ⟨i, hi, rfl⟩ := hw
    simp only
    omega

/-- Every key `_init_leds` writes is at most 98. -/
theorem init_writes_keys : ∀ w ∈ init_writes, w.1 ≤ 98 := by decide

set_option maxRecDepth 4000 in
/-- The boot dict has an entry exactly at the 76 boot keys. -/
theorem boot_domain (k : ℕ) :
    (VirtualM8.boot.led_state k).isSome = true ↔ isBootKey k := by
  rcases Nat.lt_or_ge k 99 with h | h
  · revert h
    have H : ∀ k < 99, ((VirtualM8.boot.led_state k).isSome = true ↔ isBootKey k) := by
      decide
    exact H k
  · have hled : VirtualM8.boot.led_state k = none := by
      show applyWrites (fun _ => none) init_writes k = none
      rw [applyWrites_miss _ _ _ (fun w hw => by have := init_writes_keys w hw; omega)]
    rw [hled]
    simp only [Option.isSome_none, Bool.false_eq_true, false_iff]
    unfold isBootKey isGridNote
    omega

/-- The quad list of an update list is four bytes per update. -/
theorem quads_length (us : List (ℕ × Color)) :
    (us.flatMap fun u => [u.1, u.2.1, u.2.2.1, u.2.2.2]).length = 4 * us.length := by
  induction us with
  | nil => rfl
  | cons a t ih =>
    simp only [List.flatMap_cons, List.length_append, List.length_cons, ih,
      List.length_nil]
    omega

/-! ## Claims -/

/-- C1: pressing track selector `91 + i` for any `i < 8` sets
`current_track` to `i` and returns exactly 8 update entries, one per
selector note `91..98` in that order, cyan for selector `i` and dim
white for the rest, with `led_state` updated to the same colors. -/
theorem track_select_full_row (m : VirtualM8) (i velocity : ℕ) (h : i < 8) :
    (m.handle_note_on (91 + i) velocity).1.current_track = i ∧
    (m.handle_note_on (91 + i) velocity).2.length = 8 ∧
    (∀ j, j < 8 → (m.handle_note_on (91 + i) velocity).2[j]? =
      some (91 + j, if j = i then M8_COLORS "cyan" else M8_COLORS "dim_white")) ∧
    (∀ j, j < 8 → (m.handle_note_on (91 + i) velocity).1.led_state (91 + j) =
      some (if j = i then M8_COLORS "cyan" else M8_COLORS "dim_white")) := by
  have hcond : 91 ≤ 91 + i ∧ 91 + i ≤ 98 := by omega
  have hsub : 91 + i - 91 = i := by omega
  have hkey : m.handle_note_on (91 + i) velocity =
      ({ m with current_track := i,
                led_state := applyWrites m.led_state (trackWrites i) },
       trackWrites i) := by
    unfold VirtualM8.handle_note_on
    rw [if_pos hcond]
    unfold VirtualM8.select_track VirtualM8.get_track_led_updates
    simp only [hsub]
  rw [hkey]
  refine ⟨rfl, by simp [trackWrites], fun j hj => ?_, fun j hj => ?_⟩
  · simp [trackWrites, List.getElem?_map, List.getElem?_range, hj]
  · show applyWrites m.led_state (trackWrites i) (91 + j) = _
    rw [trackWrites_char, if_pos (by omega)]
    have hj' : 91 + j - 91 = j := by omega
    rw [hj']

/-- Witness for C1 at the boot state, track 3. -/
theorem track_select_full_row_witness :
    (VirtualM8.boot.handle_note_on (91 + 3) 100).1.current_track = 3 ∧
    (VirtualM8.boot.handle_note_on (91 + 3) 100).2.length = 8 ∧
    (VirtualM8.boot.handle_note_on (91 + 3) 100).1.led_state (91 + 2) =
      some (M8_COLORS "dim_white") ∧
    (VirtualM8.boot.handle_note_on (91 + 3) 100).1.led_state (91 + 3) =
      some (M8_COLORS "cyan") :=
  ⟨(track_select_full_row VirtualM8.boot 3 100 (by decide)).1,
   (track_select_full_row VirtualM8.boot 3 100 (by decide)).2.1,
   (track_select_full_row VirtualM8.boot 3 100 (by decide)).2.2.2 2 (by decide),
   (track_select_full_row VirtualM8.boot 3 100 (by decide)).2.2.2 3 (by decide)⟩

/-- C2: the encoder maps the empty update list to `none`, and any
nonempty update list to a single payload that is the vendor header, then
the RGB mode byte, then one `[id, r, g, b]` quad per update in input
order, so its length is `header_len + 1 + 4 * n`. -/
theorem encode_frame_shape :
    create_led_sysex [] = none ∧
    ∀ us : List (ℕ × Color), us ≠ [] →
      ∃ p, create_led_sysex us = some p ∧
        p = LPP_SYSEX_HEADER ++ [LED_MODE_RGB] ++
          us.flatMap (fun u => [u.1, u.2.1, u.2.2.1, u.2.2.2]) ∧
        p.length = LPP_SYSEX_HEADER.length + 1 + 4 * us.length := by
  refine ⟨rfl, fun us h => ?_⟩
  refine ⟨_, by rw [create_led_sysex, if_neg h], by rw [List.append_assoc], ?_⟩
  simp only [List.length_append, quads_length, List.length_cons, List.length_nil]

/-- Witness for C2 at a one-update list. -/
theorem encode_frame_shape_witness :
    ∃ p, create_led_sysex [(91, M8_COLORS "cyan")] = some p ∧
      p = LPP_SYSEX_HEADER ++ [LED_MODE_RGB] ++ [91, 0, 63, 63] ∧
      p.length = 10 := by
  obtain ⟨p, h1, h2, h3⟩ := encode_frame_shape.2 [(91, M8_COLORS "cyan")] (by decide)
  exact ⟨p, h1, h2, h3⟩

/-- C3, counterexample: `create_led_sysex` does not clamp channel values
to `0..63`; the out-of-range red channel 100 is copied into the frame
verbatim. -/
theorem encode_no_clamp_cex :
    create_led_sysex [(11, (100, 0, 0))] =
      some [0x00, 0x20, 0x29, 0x02, 0x10, 0x0B, 11, 100, 0, 0] ∧
    ¬ (100 : ℕ) ≤ 63 := by decide

/-- C3, amended: the encoder copies each `(id, r, g, b)` quad into the
frame verbatim (no clamping), and every update emitted by
`handle_note_on` or `handle_note_off` carries palette channel values in
`0..63`, so frames built from state-machine output stay in range. -/
theorem encode_channels_amended :
    (∀ (us : List (ℕ × Color)) (p : List ℕ), create_led_sysex us = some p →
      p.drop 6 = us.flatMap fun u => [u.1, u.2.1, u.2.2.1, u.2.2.2]) ∧
    (∀ (m : VirtualM8) (note velocity : ℕ), ∀ u ∈ (m.handle_note_on note velocity).2,
      u.2.1 ≤ 63 ∧ u.2.2.1 ≤ 63 ∧ u.2.2.2 ≤ 63) ∧
    (∀ (m : VirtualM8) (note velocity : ℕ), ∀ u ∈ (m.handle_note_off note velocity).2,
      u.2.1 ≤ 63 ∧ u.2.2.1 ≤ 63 ∧ u.2.2.2 ≤ 63) := by
  refine ⟨fun us p hp => ?_, fun m note velocity u hu => ?_, fun m note velocity u hu => ?_⟩
  · rw [create_led_sysex] at hp
    split at hp
    · exact absurd hp (by simp)
    · have := Option.some.inj hp
      subst this
      have h6 : (LPP_SYSEX_HEADER ++ [LED_MODE_RGB]).length = 6 := rfl
      rw [← h6]
      exact List.drop_left _ _
  · unfold VirtualM8.handle_note_on VirtualM8.select_track
      VirtualM8.get_track_led_updates at hu
    split_ifs at hu
    · simp only [trackWrites, List.mem_map, List.mem_range] at hu
      obtain ⟨j, hj, rfl⟩ := hu
      split <;> simp [M8_COLORS]
    · simp only [VirtualM8.handle_nav, List.mem_singleton] at hu
      subst hu; simp [M8_COLORS]
    · simp only [List.mem_singleton] at hu
      subst hu; simp [M8_COLORS]
    · simp only [List.mem_singleton] at hu
      subst hu; simp [M8_COLORS]
    · simp at hu
  · unfold VirtualM8.handle_note_off at hu
    split_ifs at hu
    · simp only [List.mem_singleton] at hu
      subst hu; simp [M8_COLORS]
    · simp only [VirtualM8.handle_nav, List.mem_singleton] at hu
      subst hu; simp [M8_COLORS]
    · simp only [List.mem_singleton] at hu
      subst hu; simp [M8_COLORS]
    · simp at hu

/-- Witness for C3's amended statement. -/
theorem encode_channels_amended_witness :
    ([0x00, 0x20, 0x29, 0x02, 0x10, 0x0B, 11, 63, 63, 63].drop 6
      = [11, 63, 63, 63]) ∧
    ((11, M8_COLORS "white").2.1 ≤ 63 ∧ (11, M8_COLORS "white").2.2.1 ≤ 63 ∧
      (11, M8_COLORS "white").2.2.2 ≤ 63) :=
  ⟨encode_channels_amended.1 [(11, M8_COLORS "white")]
      [0x00, 0x20, 0x29, 0x02, 0x10, 0x0B, 11, 63, 63, 63] (by decide),
   encode_channels_amended.2.1 VirtualM8.boot 11 100 (11, M8_COLORS "white")
      (by decide)⟩

set_option maxRecDepth 4000 in
/-- C4, counterexample: pressing shift (note 106) never writes
`led_state`; after the press from boot, `IlluminationState` has no entry
at 106 at all, in particular not the active orange hue. -/
theorem shift_led_cex :
    (VirtualM8.boot.handle_note_on 106 100).1.led_state 106 = none ∧
    (VirtualM8.boot.handle_note_on 106 100).1.led_state 106 ≠
      some (M8_COLORS "orange") := by decide

/-- C4, amended: pressing shift sets the modifier flag and returns the
single update `(106, orange)`, and releasing it clears the flag and
returns the single update `(106, dim white)` — but neither handler
touches `IlluminationState`, which is left unchanged at every key. -/
theorem shift_press_release_amended (m : VirtualM8) (velocity : ℕ) :
    ((m.handle_note_on 106 velocity).1.shift_held = true ∧
     (m.handle_note_on 106 velocity).2 = [(106, M8_COLORS "orange")] ∧
     ∀ k, (m.handle_note_on 106 velocity).1.led_state k = m.led_state k) ∧
    ((m.handle_note_off 106 velocity).1.shift_held = false ∧
     (m.handle_note_off 106 velocity).2 = [(106, M8_COLORS "dim_white")] ∧
     ∀ k, (m.handle_note_off 106 velocity).1.led_state k = m.led_state k) := by
  have hon : m.handle_note_on 106 velocity =
      ({ m with shift_held := true }, [(106, M8_COLORS "orange")]) := by
    unfold VirtualM8.handle_note_on
    rw [if_neg (by omega), if_neg (by omega), if_neg (by omega), if_pos rfl]
  have hoff : m.handle_note_off 106 velocity =
      ({ m with shift_held := false }, [(106, M8_COLORS "dim_white")]) := by
    unfold VirtualM8.handle_note_off
    rw [if_neg (by omega), if_neg (by omega), if_pos rfl]
  rw [hon, hoff]
  exact ⟨⟨rfl, rfl, fun k => rfl⟩, ⟨rfl, rfl, fun k => rfl⟩⟩

/-- C5: pressing and then releasing any grid cell (both digits in 1..8)
leaves its `led_state` entry at the grid dim color, dim white — so a
cell that showed its pre-press dim value is restored to it exactly. -/
theorem grid_press_release_roundtrip (m : VirtualM8) (c v v' : ℕ)
    (h : isGridNote c) :
    ((m.handle_note_on c v).1.handle_note_off c v').1.led_state c =
      some (M8_COLORS "dim_white") ∧
    (m.led_state c = some (M8_COLORS "dim_white") →
      ((m.handle_note_on c v).1.handle_note_off c v').1.led_state c =
        m.led_state c) := by
  obtain ⟨h1, h2, h3, h4⟩ := h
  have hon : m.handle_note_on c v =
      ({ m with led_state := dictInsert m.led_state c (M8_COLORS "white") },
       [(c, M8_COLORS "white")]) := by
    unfold VirtualM8.handle_note_on
    rw [if_neg (by omega : ¬(91 ≤ c ∧ c ≤ 98)),
      if_neg (by omega : ¬(c = 89 ∨ c = 79 ∨ c = 69 ∨ c = 59)),
      if_pos ⟨h1, h2, h3, h4⟩]
  have hoff : ∀ m' : VirtualM8, m'.handle_note_off c v' =
      ({ m' with led_state := dictInsert m'.led_state c (M8_COLORS "dim_white") },
       [(c, M8_COLORS "dim_white")]) := fun m' => by
    unfold VirtualM8.handle_note_off
    rw [if_pos ⟨h1, h2, h3, h4⟩]
  have H : ((m.handle_note_on c v).1.handle_note_off c v').1.led_state c =
      some (M8_COLORS "dim_white") := by
    rw [hon, hoff]
    simp [dictInsert]
  exact ⟨H, fun hpre => by rw [H, hpre]⟩

/-- Witness for C5 at the boot state and grid cell 11. -/
theorem grid_press_release_roundtrip_witness :
    ((VirtualM8.boot.handle_note_on 11 100).1.handle_note_off 11 0).1.led_state 11 =
      some (M8_COLORS "dim_white") :=
  (grid_press_release_roundtrip VirtualM8.boot 11 100 0 (by decide)).1

/-- C6: pressing any control twice in a row yields the same illumination
state, selected track and modifier flag as pressing it once (proved for
every state, so in particular for every reachable one). -/
theorem press_idempotent (m : VirtualM8) (c v : ℕ) :
    (∀ k, ((m.handle_note_on c v).1.handle_note_on c v).1.led_state k =
      (m.handle_note_on c v).1.led_state k) ∧
    ((m.handle_note_on c v).1.handle_note_on c v).1.current_track =
      (m.handle_note_on c v).1.current_track ∧
    ((m.handle_note_on c v).1.handle_note_on c v).1.shift_held =
      (m.handle_note_on c v).1.shift_held := by
  unfold VirtualM8.handle_note_on VirtualM8.select_track
    VirtualM8.get_track_led_updates
  split_ifs
  · refine ⟨fun k => ?_, rfl, rfl⟩
    show applyWrites (applyWrites m.led_state (trackWrites (c - 91)))
        (trackWrites (c - 91)) k = applyWrites m.led_state (trackWrites (c - 91)) k
    by_cases hk : 91 ≤ k ∧ k ≤ 98 <;> simp [trackWrites_char, hk]
  · refine ⟨fun k => ?_, rfl, rfl⟩
    show dictInsert (dictInsert m.led_state c (M8_COLORS "blue")) c
        (M8_COLORS "blue") k = dictInsert m.led_state c (M8_COLORS "blue") k
    by_cases hk : k = c <;> simp [dictInsert, hk]
  · refine ⟨fun k => ?_, rfl, rfl⟩
    show dictInsert (dictInsert m.led_state c (M8_COLORS "white")) c
        (M8_COLORS "white") k = dictInsert m.led_state c (M8_COLORS "white") k
    by_cases hk : k = c <;> simp [dictInsert, hk]
  · exact ⟨fun k => rfl, rfl, rfl⟩
  · exact ⟨fun k => rfl, rfl, rfl⟩

/-- C7: an identifier outside every defined role (grid, track row,
navigation, shift) is ignored by both handlers: empty update and fully
unchanged state. -/
theorem unrecognized_noop (m : VirtualM8) (c v : ℕ)
    (h : ¬ isBootKey c) (h106 : c ≠ 106) :
    m.handle_note_on c v = (m, []) ∧ m.handle_note_off c v = (m, []) := by
  unfold isBootKey isGridNote at h
  constructor
  · unfold VirtualM8.handle_note_on
    rw [if_neg (by omega), if_neg (by omega), if_neg (by omega), if_neg h106]
  · unfold VirtualM8.handle_note_off
    rw [if_neg (by omega), if_neg (by omega), if_neg h106]

set_option maxRecDepth 4000 in
/-- Witness for C7 at the unrecognized identifier 999. -/
theorem unrecognized_noop_witness :
    VirtualM8.boot.handle_note_on 999 1 = (VirtualM8.boot, []) ∧
    VirtualM8.boot.handle_note_off 999 1 = (VirtualM8.boot, []) :=
  unrecognized_noop VirtualM8.boot 999 1 (by decide) (by decide)

set_option maxRecDepth 4000 in
/-- C8: from boot, pressing navigation-up (note 89) and releasing it
returns two single-entry updates for note 89, first the active blue and
then the dim blue, and `led_state 89` finishes at dim blue. -/
theorem nav_up_press_release_boot :
    (VirtualM8.boot.handle_note_on 89 100).2 = [(89, M8_COLORS "blue")] ∧
    ((VirtualM8.boot.handle_note_on 89 100).1.handle_note_off 89 0).2 =
      [(89, M8_COLORS "dim_blue")] ∧
    ((VirtualM8.boot.handle_note_on 89 100).1.handle_note_off 89 0).1.led_state 89 =
      some (M8_COLORS "dim_blue") ∧
    M8_COLORS "blue" = (0, 0, 63) ∧ M8_COLORS "dim_blue" = (0, 0, 20) := by
  decide

/-- Handler `handle_note_on` preserves the key set of `led_state`. -/
theorem handle_note_on_domain (m : VirtualM8) (note v : ℕ)
    (h : ∀ k, ((m.led_state k).isSome = true ↔ isBootKey k)) :
    ∀ k, (((m.handle_note_on note v).1.led_state k).isSome = true ↔ isBootKey k) := by
  intro k
  unfold VirtualM8.handle_note_on VirtualM8.select_track
    VirtualM8.get_track_led_updates
  split_ifs with h1 h2 h3 h4
  · show (applyWrites m.led_state (trackWrites (note - 91)) k).isSome = true ↔ _
    rw [trackWrites_char]
    by_cases hk : 91 ≤ k ∧ k ≤ 98
    · rw [if_pos hk]
      simp only [Option.isSome_some, true_iff]
      unfold isBootKey
      omega
    · rw [if_neg hk]
      exact h k
  · show ((dictInsert m.led_state note _ : ℕ → Option Color) k).isSome = true ↔ _
    unfold dictInsert
    by_cases hk : k = note
    · subst hk
      rw [if_pos rfl]
      simp only [Option.isSome_some, true_iff]
      unfold isBootKey
      omega
    · rw [if_neg hk]
      exact h k
  · show ((dictInsert m.led_state note _ : ℕ → Option Color) k).isSome = true ↔ _
    unfold dictInsert
    by_cases hk : k = note
    · subst hk
      rw [if_pos rfl]
      simp only [Option.isSome_some, true_iff]
      unfold isBootKey
      exact Or.inl h3
    · rw [if_neg hk]
      exact h k
  · exact h k
  · exact h k

/-- Handler `handle_note_off` preserves the key set of `led_state`. -/
theorem handle_note_off_domain (m : VirtualM8) (note v : ℕ)
    (h : ∀ k, ((m.led_state k).isSome = true ↔ isBootKey k)) :
    ∀ k, (((m.handle_note_off note v).1.led_state k).isSome = true ↔ isBootKey k) := by
  intro k
  unfold VirtualM8.handle_note_off
  split_ifs with h1 h2 h3
  · show ((dictInsert m.led_state note _ : ℕ → Option Color) k).isSome = true ↔ _
    unfold dictInsert
    by_cases hk : k = note
    · subst hk
      rw [if_pos rfl]
      simp only [Option.isSome_some, true_iff]
      unfold isBootKey
      exact Or.inl h1
    · rw [if_neg hk]
      exact h k
  · show ((dictInsert m.led_state note _ : ℕ → Option Color) k).isSome = true ↔ _
    unfold dictInsert
    by_cases hk : k = note
    · subst hk
      rw [if_pos rfl]
      simp only [Option.isSome_some, true_iff]
      unfold isBootKey
      omega
    · rw [if_neg hk]
      exact h k
  · exact h k
  · exact h k

/-- Every event trace preserves the key set of `led_state`. -/
theorem run_domain (evs : List (Bool × ℕ × ℕ)) :
    ∀ m : VirtualM8, (∀ k, ((m.led_state k).isSome = true ↔ isBootKey k)) →
      ∀ k, (((m.run evs).led_state k).isSome = true ↔ isBootKey k) := by
  induction evs with
  | nil => exact fun m h => h
  | cons e t ih =>
    intro m h
    have hstep : ∀ k, (((m.step e).led_state k).isSome = true ↔ isBootKey k) := by
      unfold VirtualM8.step
      by_cases he : e.1 = true
      · rw [if_pos he]
        exact handle_note_on_domain m e.2.1 e.2.2 h
      · rw [if_neg he]
        exact handle_note_off_domain m e.2.1 e.2.2 h
    exact ih (m.step e) hstep

set_option maxRecDepth 4000 in
/-- C9: along every event trace from boot, `led_state` has an entry at
exactly the 76 boot-initialized controls (all of which are below 99, and
the grid/track/navigation predicate counts exactly 76 of them); the
shift note 106 is never a key, so no snapshot `get_all_leds` ever
contains an entry for it. -/
theorem led_key_set_invariant :
    (∀ (evs : List (Bool × ℕ × ℕ)) (k : ℕ),
      (((VirtualM8.boot.run evs).led_state k).isSome = true ↔ isBootKey k)) ∧
    (∀ k, isBootKey k → k < 99) ∧
    ((Finset.range 99).filter isBootKey).card = 76 ∧
    (∀ evs : List (Bool × ℕ × ℕ), (VirtualM8.boot.run evs).led_state 106 = none) ∧
    (∀ (evs : List (Bool × ℕ × ℕ)) (c : Color),
      (106, c) ∉ (VirtualM8.boot.run evs).get_all_leds) := by
  have hdom : ∀ (evs : List (Bool × ℕ × ℕ)) (k : ℕ),
      (((VirtualM8.boot.run evs).led_state k).isSome = true ↔ isBootKey k) :=
    fun evs => run_domain evs VirtualM8.boot boot_domain
  have h106 : ∀ evs : List (Bool × ℕ × ℕ),
      (VirtualM8.boot.run evs).led_state 106 = none := by
    intro evs
    have hno : ¬ ((VirtualM8.boot.run evs).led_state 106).isSome = true := by
      rw [hdom evs 106]
      decide
    rw [Option.not_isSome_iff_eq_none] at hno
    exact hno
  refine ⟨hdom, ?_, by decide, h106, ?_⟩
  · intro k hk
    unfold isBootKey isGridNote at hk
    omega
  · intro evs c hc
    simp only [VirtualM8.get_all_leds, List.mem_filterMap, List.mem_range] at hc
    obtain ⟨a, ha, hmap⟩ := hc
    rw [Option.map_eq_some'] at hmap
    obtain ⟨x, hx, hpair⟩ := hmap
    rw [Prod.mk.injEq] at hpair
    obtain ⟨rfl, rfl⟩ := hpair
    rw [h106 evs] at hx
    exact Option.noConfusion hx

/-- Witness for C9: the navigation-left note 59 is a boot key below 99. -/
theorem led_key_set_invariant_witness : isBootKey 59 ∧ 59 < 99 :=
  ⟨by decide, led_key_set_invariant.2.1 59 (by decide)⟩

/-- C10: the velocity carried by a press (or release) has no influence at
all — both handlers return identical states and updates for any two
velocities (the source only logs it). -/
theorem velocity_noninterference (m : VirtualM8) (note v1 v2 : ℕ) :
    m.handle_note_on note v1 = m.handle_note_on note v2 ∧
    m.handle_note_off note v1 = m.handle_note_off note v2 :=
  ⟨rfl, rfl⟩
